import Mathlib

/-!
Verification of the order-to-stock reconciliation pipeline of the
`backend-or` orchestrator.

The development shallow-embeds the TypeScript services as pure Lean
functions.  Every remote call (Odoo JSON-RPC, marketplace adapter,
audit-log persistence) is resolved through an explicit environment of
call outcomes, and each function additionally returns the list of
remote calls it issued, in order, so that temporal properties
("write-pending before apply", "origin excluded from fan-out") are
statements about that trace.

Sources embedded:
* `src/src/odoo/odoo.service.ts` and the extended Odoo service
  (search product, stock quant, the 4-step reduce-stock protocol,
  partner / invoice-contact resolution, sale-order creation and
  confirmation, `processMarketplaceOrder`);
* the Bull `stock-updates` processor (`handleReduceStock`,
  `syncToAllMarketplaces`, `handleSyncStock`) with its per-job
  concurrency options;
* `src/src/logs/logs.service.ts` (`create` persists a record and
  returns the save promise; call sites `await` it).
-/

/-- Product row returned by the `product.product` `search_read`
(`id`, `qty_available`; `name`/`default_code` are only logged). -/
structure OdooProduct where
  id : Int
  qtyAvailable : Int
  deriving DecidableEq, Repr

/-- Stock-quant row returned by the `stock.quant` `search_read`
(`id`, `quantity`). -/
structure StockQuant where
  id : Int
  quantity : Int
  deriving DecidableEq, Repr

/-- Sale-order line as assembled by `processMarketplaceOrder`
(step 3): resolved product id, quantity, net unit price, label. -/
structure OrderLine where
  productId : Int
  quantity : Int
  priceUnit : ℚ
  lineName : String
  deriving DecidableEq, Repr

/-- Remote calls issued by the Odoo service, in issue order.  An event
is recorded when the request is sent, independently of its outcome. -/
inductive OdooEv where
  | searchProduct (sku : String)
  | getStockQuant (productId : Int) (locationId : Int)
  | writePending (quantId : Int) (newQty : Int)
  | applyInventory (quantId : Int)
  | searchPartner (email : String)
  | createPartner
  | searchInvoiceContact (parentId : Int) (vat : String)
  | createInvoiceContact
  | createSaleOrder (orderLines : List OrderLine)
  | confirmSaleOrder (orderId : Int)
  deriving DecidableEq, Repr

/-- Outcomes of the remote calls the Odoo service can make.  `Except`
errors stand for a rejected promise (HTTP failure) or a thrown
"not found" error; `logOk` is whether `logsService.create`
(a Mongo `save`) resolves.  A single flag suffices because every
claim only distinguishes "audit writes succeed" from "they reject". -/
structure OdooEnv where
  searchResult : String → Except String OdooProduct
  quantResult : Int → Except String StockQuant
  writeResult : Int → Except String Bool
  applyResult : Int → Except String Unit
  partnerByEmail : String → Except String (Option Int)
  createPartnerResult : Except String Int
  invoiceContactFor : Int → String → Except String (Option Int)
  createInvoiceContactResult : Except String Int
  createSaleOrderResult : Except String Int
  confirmResult : Int → Except String Unit
  logOk : Bool

/-- Error message standing for a rejected `logsService.create` call. -/
def auditErrMsg : String := "audit log write failed"

/-- The `try { ...; await log(success); return v } catch (e) { await
log(error); throw }` wrapper used by every Odoo service method: when
the audit write resolves the body outcome passes through; when it
rejects, the awaited `create` throws (on both the success and the
error path) and the method rejects with the audit error. -/
def withAudit {α : Type} (logOk : Bool) (r : Except String α) : Except String α :=
  if logOk then r else .error auditErrMsg

/-- Variant for methods that only log on the error path
(`processMarketplaceOrder` has no success-path `create` of its own). -/
def withAuditErr {α : Type} (logOk : Bool) (r : Except String α) : Except String α :=
  match r with
  | .ok v => .ok v
  | .error e => .error (if logOk then e else auditErrMsg)

/-- `searchProductBySku`: one `product.product` `search_read`; throws
`Product with SKU ... not found in Odoo` when the result is empty
(folded into the environment outcome), audit-logged either way. -/
def searchProductBySku (env : OdooEnv) (sku : String) :
    Except String OdooProduct × List OdooEv :=
  (withAudit env.logOk (env.searchResult sku), [OdooEv.searchProduct sku])

/-- `getStockQuant`: one `stock.quant` `search_read` by product and
location; throws when absent, audit-logged either way. -/
def getStockQuant (env : OdooEnv) (productId : Int) (locationId : Int) :
    Except String StockQuant × List OdooEv :=
  (withAudit env.logOk (env.quantResult productId),
   [OdooEv.getStockQuant productId locationId])

/-- Message of the `Insufficient stock` error thrown by `reduceStock`. -/
def insufficientMsg (cur req : Int) : String :=
  s!"Insufficient stock. Current: {cur}, Requested: {req}"

/-- Result object returned by `reduceStock` on success. -/
structure ReduceResult where
  productId : Int
  sku : String
  previousStock : Int
  newStock : Int
  quantityReduced : Int
  deriving DecidableEq, Repr

/-- `reduceStock(sku, quantity)`: search product, fetch the stock
quant at location 8, compute `newStock = quant.quantity - quantity`,
throw `Insufficient stock` when negative, otherwise `write` the
pending `inventory_quantity` and `action_apply_inventory` it; the
whole body is audit-wrapped. -/
def reduceStock (env : OdooEnv) (sku : String) (quantity : Int) :
    Except String ReduceResult × List OdooEv :=
  let inner : Except String ReduceResult × List OdooEv :=
    match searchProductBySku env sku with
    | (.error e, t1) => (.error e, t1)
    | (.ok product, t1) =>
      match getStockQuant env product.id 8 with
      | (.error e, t2) => (.error e, t1 ++ t2)
      | (.ok stockQuant, t2) =>
        let newStock := stockQuant.quantity - quantity
        if newStock < 0 then
          (.error (insufficientMsg stockQuant.quantity quantity), t1 ++ t2)
        else
          match env.writeResult stockQuant.id with
          | .error e =>
              (.error e, t1 ++ t2 ++ [OdooEv.writePending stockQuant.id newStock])
          | .ok writeOk =>
            if writeOk = false then
              (.error "Failed to update inventory_quantity",
               t1 ++ t2 ++ [OdooEv.writePending stockQuant.id newStock])
            else
              match env.applyResult stockQuant.id with
              | .error e =>
                  (.error e,
                   t1 ++ t2 ++ [OdooEv.writePending stockQuant.id newStock,
                                OdooEv.applyInventory stockQuant.id])
              | .ok _ =>
                  (.ok { productId := product.id, sku := sku,
                         previousStock := stockQuant.quantity,
                         newStock := newStock, quantityReduced := quantity },
                   t1 ++ t2 ++ [OdooEv.writePending stockQuant.id newStock,
                                OdooEv.applyInventory stockQuant.id])
  (withAudit env.logOk inner.1, inner.2)

/-- `getStockBySku`: search the product and return its
`qty_available` (the `|| 0` fallback is the identity on an integer
field), audit-wrapped. -/
def getStockBySku (env : OdooEnv) (sku : String) :
    Except String Int × List OdooEv :=
  match searchProductBySku env sku with
  | (.error e, t) => (withAudit env.logOk (.error e), t)
  | (.ok p, t) => (withAudit env.logOk (.ok p.qtyAvailable), t)

/-- Observable state of the single stock record touched by a
`reduceStock` run: the committed on-hand quantity and the pending
`inventory_quantity`, if any. -/
structure StoreState where
  onHand : Int
  pending : Option Int
  deriving DecidableEq, Repr

/-- Effect of one issued call on the stock record: `write` stores a
pending quantity, `action_apply_inventory` commits it; reads change
nothing. -/
def stepEv (s : StoreState) (ev : OdooEv) : StoreState :=
  match ev with
  | .writePending _ q => { s with pending := some q }
  | .applyInventory _ =>
    match s.pending with
    | some q => { onHand := q, pending := none }
    | none => s
  | _ => s

/-- Replay a call trace against the stock record. -/
def runTrace (s : StoreState) (t : List OdooEv) : StoreState := t.foldl stepEv s

example :
    runTrace ⟨10, none⟩ [OdooEv.writePending 2 8, OdooEv.applyInventory 2] =
      ⟨8, none⟩ := by decide

/-- The `AVAILABLE_MARKETPLACES` registry of the stock processor. -/
def AVAILABLE_MARKETPLACES : List String := ["falabella", "ripley", "paris", "walmart"]

/-- Keys of the `marketplaceServices` map: the constructor registers a
service for every marketplace in `AVAILABLE_MARKETPLACES`. -/
def marketplaceServiceNames : List String := AVAILABLE_MARKETPLACES

/-- Per-target entry of the sync report built by
`syncToAllMarketplaces` (`{success, error?}` keyed by marketplace). -/
structure TargetResult where
  marketplace : String
  success : Bool
  error : Option String
  deriving DecidableEq, Repr

/-- Outcomes of the remote calls made by the sync engine: the
`updateStock` of each marketplace adapter, and whether
`logsService.create` resolves. -/
structure SyncEnv where
  updateResult : String → Except String Unit
  logOk : Bool

/-- Adapter calls issued by the fan-out, recorded when the call is
made regardless of its outcome. -/
inductive SyncEv where
  | updateStock (marketplace : String) (sku : String) (quantity : Int)
  deriving DecidableEq, Repr

/-- One arm of the fan-out `map`: look the marketplace up in the
service registry (a miss is reported, not attempted), call its
`updateStock`, and audit-log the outcome inside the same promise; a
rejected audit write rejects the arm (the `create` is awaited inside
both the `try` and the `catch`), while an adapter error is caught and
returned as a failure entry. -/
def syncOne (env : SyncEnv) (sku : String) (newStock : Int) (mp : String) :
    Except String TargetResult × List SyncEv :=
  if mp ∈ marketplaceServiceNames then
    match env.updateResult mp with
    | .ok _ =>
        (withAudit env.logOk (.ok { marketplace := mp, success := true, error := none }),
         [SyncEv.updateStock mp sku newStock])
    | .error e =>
        (withAudit env.logOk (.ok { marketplace := mp, success := false, error := some e }),
         [SyncEv.updateStock mp sku newStock])
  else
    (.ok { marketplace := mp, success := false, error := some "Service not implemented" }, [])

/-- `Promise.all` over the per-target arms: every arm runs (all calls
are issued), the aggregate resolves to the list of per-target results
when no arm rejects, and rejects otherwise. -/
def syncTargets (env : SyncEnv) (sku : String) (newStock : Int) :
    List String → Except String (List TargetResult) × List SyncEv
  | [] => (.ok [], [])
  | mp :: rest =>
    let head := syncOne env sku newStock mp
    let tail := syncTargets env sku newStock rest
    (match head.1, tail.1 with
     | .error e, _ => .error e
     | .ok _, .error e => .error e
     | .ok v, .ok vs => .ok (v :: vs),
     head.2 ++ tail.2)

/-- `toLowerCase` as applied to marketplace names: per-character ASCII
lowering (structurally recursive, so concrete instances compute). -/
def lowerStr (s : String) : String := ⟨s.data.map Char.toLower⟩

/-- `toUpperCase().substring(0, 4)` of the shipping-SKU fallback. -/
def upperTake4 (s : String) : String := ⟨(s.data.map Char.toUpper).take 4⟩

/-- `targetsToSync`: the configured marketplaces minus the one whose
lower-cased name equals the lower-cased origin. -/
def targetsToSync (origin : String) : List String :=
  AVAILABLE_MARKETPLACES.filter (fun mp => lowerStr mp != lowerStr origin)

/-- `syncToAllMarketplaces(sku, newStock, origin)`: fan the new
quantity out to every non-origin marketplace and aggregate the
per-target outcomes. -/
def syncToAllMarketplaces (env : SyncEnv) (sku : String) (newStock : Int)
    (origin : String) : Except String (List TargetResult) × List SyncEv :=
  syncTargets env sku newStock (targetsToSync origin)

/-- Result the `sync-stock` job handler resolves with. -/
structure SyncJobResult where
  odooStock : Int
  syncResults : List TargetResult
  deriving DecidableEq, Repr

/-- `handleSyncStock` (the `sync-stock` job): read the authoritative
Odoo stock for the SKU, then fan it out with an empty origin so that
every marketplace is a target; the handler audit-logs its own outcome
(`procLogOk` is the fate of that write). -/
def handleSyncStock (oenv : OdooEnv) (senv : SyncEnv) (procLogOk : Bool)
    (sku : String) :
    Except String SyncJobResult × List OdooEv × List SyncEv :=
  match getStockBySku oenv sku with
  | (.error e, t) => (withAudit procLogOk (.error e), t, [])
  | (.ok st, t) =>
    match syncToAllMarketplaces senv sku st "" with
    | (.error e, t2) => (withAudit procLogOk (.error e), t, t2)
    | (.ok rs, t2) =>
        (withAudit procLogOk (.ok { odooStock := st, syncResults := rs }), t, t2)

/-- Payload of a `reduce-stock` job (`orderId`, `sku`, `quantity`,
`source`, optional precomputed `newStock`). -/
structure ReduceJobData where
  orderId : Option String
  sku : String
  quantity : Int
  source : String
  newStock : Option Int

/-- Result the `reduce-stock` job handler resolves with. -/
structure ReduceJobResult where
  sku : String
  quantity : Int
  finalStock : Int
  syncResults : List TargetResult
  deriving DecidableEq, Repr

/-- `handleReduceStock` (the `reduce-stock` job): when the payload
already carries `newStock` the Odoo reduction is skipped entirely and
only the fan-out runs; otherwise `reduceStock` computes the new
quantity first.  The handler audit-logs its own outcome. -/
def handleReduceStock (oenv : OdooEnv) (senv : SyncEnv) (procLogOk : Bool)
    (job : ReduceJobData) :
    Except String ReduceJobResult × List OdooEv × List SyncEv :=
  match job.newStock with
  | some fs =>
    match syncToAllMarketplaces senv job.sku fs job.source with
    | (.error e, t2) => (withAudit procLogOk (.error e), ([] : List OdooEv), t2)
    | (.ok rs, t2) =>
        (withAudit procLogOk
          (.ok { sku := job.sku, quantity := job.quantity,
                 finalStock := fs, syncResults := rs }),
         ([] : List OdooEv), t2)
  | none =>
    match reduceStock oenv job.sku job.quantity with
    | (.error e, t) => (withAudit procLogOk (.error e), t, [])
    | (.ok r, t) =>
      match syncToAllMarketplaces senv job.sku r.newStock job.source with
      | (.error e, t2) => (withAudit procLogOk (.error e), t, t2)
      | (.ok rs, t2) =>
          (withAudit procLogOk
            (.ok { sku := job.sku, quantity := job.quantity,
                   finalStock := r.newStock, syncResults := rs }),
           t, t2)

/-- Options of a `@Process` handler registration on the
`stock-updates` queue. -/
structure ProcessOptions where
  jobName : String
  concurrency : Nat
  deriving DecidableEq, Repr

/-- `@Process` options of `reduce-stock`: concurrency 1. -/
def reduceStockProcess : ProcessOptions :=
  { jobName := "reduce-stock", concurrency := 1 }

/-- `@Process` options of `update-marketplace`: concurrency 2. -/
def updateMarketplaceProcess : ProcessOptions :=
  { jobName := "update-marketplace", concurrency := 2 }

/-- `@Process` options of `sync-stock`: concurrency 1. -/
def syncStockProcess : ProcessOptions :=
  { jobName := "sync-stock", concurrency := 1 }

/-- Scheduling events of one named job lane: a worker picks a job up
or completes it. -/
inductive QueueEv where
  | start (job : Nat)
  | finish (job : Nat)
  deriving DecidableEq, Repr

/-- Jobs in flight after one scheduling event. -/
def runningStep (running : List Nat) : QueueEv → List Nat
  | .start j => j :: running
  | .finish j => running.erase j

/-- Jobs in flight after a scheduling trace. -/
def runningAfter (t : List QueueEv) : List Nat := t.foldl runningStep []

/-- Modelled from the spec: the work-queue substrate (Bull, an
external dependency not part of this repository) runs a named lane
under its registered concurrency limit — a job starts only while
fewer jobs than the limit are in flight (and at most once), and only
in-flight jobs finish. -/
def validFrom (c : Nat) (running started : List Nat) : List QueueEv → Bool
  | [] => true
  | .start j :: rest =>
      !started.contains j && running.length < c &&
      validFrom c (j :: running) (j :: started) rest
  | .finish j :: rest =>
      running.contains j && validFrom c (running.erase j) started rest

/-- A scheduling trace the queue can produce for a lane whose
registered concurrency is `c`. -/
def ValidTrace (c : Nat) (t : List QueueEv) : Prop := validFrom c [] [] t = true

example : ValidTrace reduceStockProcess.concurrency
    [QueueEv.start 0, QueueEv.finish 0, QueueEv.start 1, QueueEv.finish 1] := by
  unfold ValidTrace; decide

example : ¬ ValidTrace reduceStockProcess.concurrency
    [QueueEv.start 0, QueueEv.start 1] := by unfold ValidTrace; decide

/-- Customer block of a marketplace order payload. -/
structure CustomerData where
  custName : String
  email : String
  phone : Option String
  nationalId : Option String
  legalId : Option String
  billingName : Option String
  billingStreet : Option String
  billingCity : Option String

/-- One order line item (`sku`, `quantity`, gross `price`, display
name).  Prices are modelled as exact rationals. -/
structure OrderItem where
  sku : String
  quantity : Int
  price : ℚ
  itemName : String

/-- Argument of `processMarketplaceOrder`. -/
structure OrderData where
  marketplace : String
  orderId : String
  customer : CustomerData
  items : List OrderItem
  shippingPrice : Option ℚ

/-- `searchPartnerByEmail`: `res.partner` `search_read`, resolving to
the id of the first match or `null`; audit-logged.  Only the partner id is
consumed downstream (the name is just printed). -/
def searchPartnerByEmail (env : OdooEnv) (email : String) :
    Except String (Option Int) × List OdooEv :=
  (withAudit env.logOk (env.partnerByEmail email), [OdooEv.searchPartner email])

/-- `createPartner`: `res.partner` `create`; a falsy created id is
turned into a thrown `Failed to create partner`; audit-logged. -/
def createPartner (env : OdooEnv) : Except String Int × List OdooEv :=
  let r : Except String Int :=
    match env.createPartnerResult with
    | .error e => .error e
    | .ok pid => if pid = 0 then .error "Failed to create partner" else .ok pid
  (withAudit env.logOk r, [OdooEv.createPartner])

/-- `searchInvoiceContact`: `res.partner` `search_read` by parent and
vat, resolving to the id of the first match or `null`; audit-logged. -/
def searchInvoiceContact (env : OdooEnv) (parentId : Int) (vat : String) :
    Except String (Option Int) × List OdooEv :=
  (withAudit env.logOk (env.invoiceContactFor parentId vat),
   [OdooEv.searchInvoiceContact parentId vat])

/-- `createInvoiceContact`: `res.partner` `create` of an invoice-type
child contact; falsy id rejected; audit-logged. -/
def createInvoiceContact (env : OdooEnv) : Except String Int × List OdooEv :=
  let r : Except String Int :=
    match env.createInvoiceContactResult with
    | .error e => .error e
    | .ok cid => if cid = 0 then .error "Failed to create invoice contact" else .ok cid
  (withAudit env.logOk r, [OdooEv.createInvoiceContact])

/-- `createSaleOrder`: `sale.order` `create` carrying the assembled
order lines; falsy id rejected; audit-logged. -/
def createSaleOrder (env : OdooEnv) (orderLines : List OrderLine) :
    Except String Int × List OdooEv :=
  let r : Except String Int :=
    match env.createSaleOrderResult with
    | .error e => .error e
    | .ok oid => if oid = 0 then .error "Failed to create sale order" else .ok oid
  (withAudit env.logOk r, [OdooEv.createSaleOrder orderLines])

/-- `confirmSaleOrder`: `sale.order` `action_confirm`, resolving to
`true`; audit-logged. -/
def confirmSaleOrder (env : OdooEnv) (orderId : Int) :
    Except String Bool × List OdooEv :=
  (withAudit env.logOk ((env.confirmResult orderId).map (fun _ => true)),
   [OdooEv.confirmSaleOrder orderId])

/-- `skuMap` of `searchShippingProduct` plus its
`ENV + first 4 letters of the upper-cased name` fallback. -/
def shippingSkuMap : List (String × String) :=
  [("falabella", "ENVFALLA"), ("ripley", "ENVRIP"),
   ("paris", "ENVPAR"), ("mercadolibre", "ENVML")]

/-- SKU of the marketplace-specific shipping product. -/
def shippingSkuFor (marketplace : String) : String :=
  match shippingSkuMap.lookup (lowerStr marketplace) with
  | some sku => sku
  | none => "ENV" ++ upperTake4 marketplace

/-- Step 3 loop of `processMarketplaceOrder`: resolve the SKU of each item
(`searchProductBySku` throws on a miss, aborting the whole order) and
record a line whose unit price is the gross price divided by `1.19`. -/
def itemLines (env : OdooEnv) :
    List OrderItem → Except String (List OrderLine) × List OdooEv
  | [] => (.ok [], [])
  | item :: rest =>
    match searchProductBySku env item.sku with
    | (.error e, t) => (.error e, t)
    | (.ok p, t) =>
      match itemLines env rest with
      | (.error e, t2) => (.error e, t ++ t2)
      | (.ok ls, t2) =>
        (.ok ({ productId := p.id, quantity := item.quantity,
                priceUnit := item.price / 1.19,
                lineName := item.sku ++ " - " ++ item.itemName } :: ls),
         t ++ t2)

/-- Shipping part of step 3: when a positive shipping fee is present,
try the marketplace-specific shipping product; a lookup failure is
caught with a warning and the synthetic line is simply omitted. -/
def shippingLines (env : OdooEnv) (marketplace : String) :
    Option ℚ → List OrderLine × List OdooEv
  | none => ([], [])
  | some p =>
    if 0 < p then
      match searchProductBySku env (shippingSkuFor marketplace) with
      | (.error _, t) => ([], t)
      | (.ok sp, t) =>
        ([{ productId := sp.id, quantity := 1, priceUnit := p / 1.19,
            lineName := "Envío " ++ marketplace }], t)
    else ([], [])

/-- Step 6 loop: reduce stock line by line through the 4-step
protocol, collecting the per-line results; the first failure aborts. -/
def reduceItems (env : OdooEnv) :
    List OrderItem → Except String (List ReduceResult) × List OdooEv
  | [] => (.ok [], [])
  | item :: rest =>
    match reduceStock env item.sku item.quantity with
    | (.error e, t) => (.error e, t)
    | (.ok r, t) =>
      match reduceItems env rest with
      | (.error e, t2) => (.error e, t ++ t2)
      | (.ok rs, t2) => (.ok (r :: rs), t ++ t2)

/-- Value `processMarketplaceOrder` resolves with. -/
structure ProcessOrderResult where
  partnerId : Int
  invoiceContactId : Option Int
  saleOrderId : Int
  stockUpdates : List ReduceResult
  deriving DecidableEq, Repr

/-- Paso 1 of `processMarketplaceOrder`: resolve the customer by
email, creating it (with `vat` = `legalId || nationalId`) when
absent. -/
def resolveCustomer (env : OdooEnv) (email : String) :
    Except String Int × List OdooEv :=
  match searchPartnerByEmail env email with
  | (.error e, t1) => (.error e, t1)
  | (.ok (some pid), t1) => (.ok pid, t1)
  | (.ok none, t1) =>
    match createPartner env with
    | (.error e, tc) => (.error e, t1 ++ tc)
    | (.ok pid, tc) => (.ok pid, t1 ++ tc)

/-- Paso 2 of `processMarketplaceOrder`: only when both a legal id and
a billing name are present, resolve the invoice contact under the
customer, creating it if absent. -/
def resolveBilling (env : OdooEnv) (partnerId : Int) (cust : CustomerData) :
    Except String (Option Int) × List OdooEv :=
  match cust.legalId, cust.billingName with
  | some legalId, some _ =>
    (match searchInvoiceContact env partnerId legalId with
     | (.error e, t) => (.error e, t)
     | (.ok (some cid), t) => (.ok (some cid), t)
     | (.ok none, t) =>
       match createInvoiceContact env with
       | (.error e, t2) => (.error e, t ++ t2)
       | (.ok cid, t2) => (.ok (some cid), t ++ t2))
  | _, _ => (.ok none, [])

/-- `processMarketplaceOrder`: resolve or create the customer, the
optional billing contact, build the order lines (items, then the
optional shipping line), create and confirm the sale order, then
reduce stock per item.  Any step error aborts the remaining steps;
the handler itself audit-logs only on the error path. -/
def processMarketplaceOrder (env : OdooEnv) (od : OrderData) :
    Except String ProcessOrderResult × List OdooEv :=
  let inner : Except String ProcessOrderResult × List OdooEv :=
    match resolveCustomer env od.customer.email with
    | (.error e, ta) => (.error e, ta)
    | (.ok partnerId, ta) =>
      match resolveBilling env partnerId od.customer with
      | (.error e, tb) => (.error e, ta ++ tb)
      | (.ok invoiceContactId, tb) =>
        match itemLines env od.items with
        | (.error e, t3) => (.error e, ta ++ tb ++ t3)
        | (.ok lines0, t3) =>
          let ship := shippingLines env od.marketplace od.shippingPrice
          match createSaleOrder env (lines0 ++ ship.1) with
          | (.error e, t4) => (.error e, ta ++ tb ++ t3 ++ ship.2 ++ t4)
          | (.ok saleOrderId, t4) =>
            match confirmSaleOrder env saleOrderId with
            | (.error e, t5) =>
                (.error e, ta ++ tb ++ t3 ++ ship.2 ++ t4 ++ t5)
            | (.ok _, t5) =>
              match reduceItems env od.items with
              | (.error e, t6) =>
                  (.error e, ta ++ tb ++ t3 ++ ship.2 ++ t4 ++ t5 ++ t6)
              | (.ok ups, t6) =>
                  (.ok { partnerId := partnerId,
                         invoiceContactId := invoiceContactId,
                         saleOrderId := saleOrderId, stockUpdates := ups },
                   ta ++ tb ++ t3 ++ ship.2 ++ t4 ++ t5 ++ t6)
  (withAuditErr env.logOk inner.1, inner.2)

/-- Remote environment in which every call succeeds: the SKU resolves
to product 1 with 10 on hand, its quant record is id 2 with quantity
10, writes and applies succeed, and audit writes persist. -/
def envGood : OdooEnv :=
  { searchResult := fun _ => .ok ⟨1, 10⟩
  , quantResult := fun _ => .ok ⟨2, 10⟩
  , writeResult := fun _ => .ok true
  , applyResult := fun _ => .ok ()
  , partnerByEmail := fun _ => .ok (some 7)
  , createPartnerResult := .ok 7
  , invoiceContactFor := fun _ _ => .ok none
  , createInvoiceContactResult := .ok 9
  , createSaleOrderResult := .ok 55
  , confirmResult := fun _ => .ok ()
  , logOk := true }

/-- `envGood` with the audit-log persistence rejecting. -/
def envBadLog : OdooEnv := { envGood with logOk := false }

/-- `envGood` with only 3 on hand in the quant record. -/
def envLowStock : OdooEnv :=
  { envGood with searchResult := fun _ => .ok ⟨1, 3⟩
               , quantResult := fun _ => .ok ⟨2, 3⟩ }

example : (reduceStock envGood "A1" 2).1 = .ok ⟨1, "A1", 10, 8, 2⟩ := rfl

example :
    (reduceStock envGood "A1" 2).2 =
      [OdooEv.searchProduct "A1", OdooEv.getStockQuant 1 8,
       OdooEv.writePending 2 8, OdooEv.applyInventory 2] := by decide

example :
    (reduceStock envLowStock "B2" 5).1 = .error (insufficientMsg 3 5) := rfl

/-- Success inversion for `reduceStock`: a resolved call implies the
audit writes persisted, the product and quant lookups succeeded, the
guard passed, and it fixes the returned record and the issued trace. -/
lemma reduceStock_ok_inv (env : OdooEnv) (sku : String) (quantity : Int)
    (r : ReduceResult) (h : (reduceStock env sku quantity).1 = Except.ok r) :
    env.logOk = true ∧ ∃ p q, env.searchResult sku = Except.ok p ∧
      env.quantResult p.id = Except.ok q ∧ 0 ≤ q.quantity - quantity ∧
      r = ⟨p.id, sku, q.quantity, q.quantity - quantity, quantity⟩ ∧
      (reduceStock env sku quantity).2 =
        [OdooEv.searchProduct sku, OdooEv.getStockQuant p.id 8,
         OdooEv.writePending q.id (q.quantity - quantity),
         OdooEv.applyInventory q.id] := by
  cases hl : env.logOk with
  | false => simp [reduceStock, withAudit, hl] at h
  | true =>
    refine ⟨rfl, ?_⟩
    cases hs : env.searchResult sku with
    | error e =>
        simp [reduceStock, searchProductBySku, withAudit, hl, hs] at h
    | ok p =>
      cases hq : env.quantResult p.id with
      | error e =>
          simp [reduceStock, searchProductBySku, getStockQuant, withAudit,
                hl, hs, hq] at h
      | ok q =>
        by_cases hneg : q.quantity - quantity < 0
        · simp [reduceStock, searchProductBySku, getStockQuant, withAudit,
                hl, hs, hq, hneg] at h
        · cases hw : env.writeResult q.id with
          | error e =>
              simp [reduceStock, searchProductBySku, getStockQuant, withAudit,
                    hl, hs, hq, hneg, hw] at h
          | ok wok =>
            cases wok with
            | false =>
                simp [reduceStock, searchProductBySku, getStockQuant, withAudit,
                      hl, hs, hq, hneg, hw] at h
            | true =>
              cases ha : env.applyResult q.id with
              | error e =>
                  simp [reduceStock, searchProductBySku, getStockQuant, withAudit,
                        hl, hs, hq, hneg, hw, ha] at h
              | ok u =>
                refine ⟨p, q, rfl, hq, by omega, ?_, ?_⟩
                · simp [reduceStock, searchProductBySku, getStockQuant, withAudit,
                        hl, hs, hq, hneg, hw, ha] at h
                  exact h.symm
                · simp [reduceStock, searchProductBySku, getStockQuant, withAudit,
                        hl, hs, hq, hneg, hw, ha]

/-- Recognizer for `write` (pending quantity) calls. -/
def isWritePendingEv : OdooEv → Bool
  | .writePending _ _ => true
  | _ => false

/-- Recognizer for `action_apply_inventory` calls. -/
def isApplyEv : OdooEv → Bool
  | .applyInventory _ => true
  | _ => false

/-- C1: if the quantity read from the resolved stock record minus the
requested quantity is below zero, `reduceStock` fails (with the
`Insufficient stock` error whenever the audit write is not the thing
that rejects), issues neither the write-pending call nor the apply
call, and replaying the issued calls leaves the stock record
unchanged; moreover, from a non-negative on-hand quantity no
`reduceStock` run can drive the replayed on-hand quantity negative. -/
theorem reduceStock_insufficient_guard
    (env : OdooEnv) (sku : String) (quantity : Int) (p : OdooProduct) (q : StockQuant)
    (hs : env.searchResult sku = Except.ok p)
    (hq : env.quantResult p.id = Except.ok q) :
    (q.quantity - quantity < 0 →
      (∀ r, (reduceStock env sku quantity).1 ≠ Except.ok r) ∧
      (env.logOk = true →
        (reduceStock env sku quantity).1 =
          Except.error (insufficientMsg q.quantity quantity)) ∧
      (∀ i n, OdooEv.writePending i n ∉ (reduceStock env sku quantity).2) ∧
      (∀ i, OdooEv.applyInventory i ∉ (reduceStock env sku quantity).2) ∧
      runTrace ⟨q.quantity, none⟩ (reduceStock env sku quantity).2 =
        ⟨q.quantity, none⟩) ∧
    (0 ≤ q.quantity →
      0 ≤ (runTrace ⟨q.quantity, none⟩ (reduceStock env sku quantity).2).onHand) := by
  cases hl : env.logOk with
  | false =>
    have htr : reduceStock env sku quantity =
        (Except.error auditErrMsg, [OdooEv.searchProduct sku]) := by
      simp [reduceStock, searchProductBySku, withAudit, hl]
    rw [htr]
    constructor
    · intro _
      exact ⟨by simp, by simp [hl], by simp, by simp, by simp [runTrace, stepEv]⟩
    · intro h0
      simpa [runTrace, stepEv] using h0
  | true =>
    by_cases hneg : q.quantity - quantity < 0
    · have htr : reduceStock env sku quantity =
          (Except.error (insufficientMsg q.quantity quantity),
           [OdooEv.searchProduct sku, OdooEv.getStockQuant p.id 8]) := by
        simp [reduceStock, searchProductBySku, getStockQuant, withAudit,
              hl, hs, hq, hneg]
      rw [htr]
      constructor
      · intro _
        exact ⟨by simp, fun _ => rfl, by simp, by simp, by simp [runTrace, stepEv]⟩
      · intro h0
        simpa [runTrace, stepEv] using h0
    · constructor
      · intro hneg2
        exact absurd hneg2 hneg
      · intro h0
        cases hw : env.writeResult q.id with
        | error e =>
          have htr : reduceStock env sku quantity =
              (Except.error e,
               [OdooEv.searchProduct sku, OdooEv.getStockQuant p.id 8,
                OdooEv.writePending q.id (q.quantity - quantity)]) := by
            simp [reduceStock, searchProductBySku, getStockQuant, withAudit,
                  hl, hs, hq, hneg, hw]
          rw [htr]
          simpa [runTrace, stepEv] using h0
        | ok wok =>
          cases wok with
          | false =>
            have htr : reduceStock env sku quantity =
                (Except.error "Failed to update inventory_quantity",
                 [OdooEv.searchProduct sku, OdooEv.getStockQuant p.id 8,
                  OdooEv.writePending q.id (q.quantity - quantity)]) := by
              simp [reduceStock, searchProductBySku, getStockQuant, withAudit,
                    hl, hs, hq, hneg, hw]
            rw [htr]
            simpa [runTrace, stepEv] using h0
          | true =>
            cases ha : env.applyResult q.id with
            | error e =>
              have htr : reduceStock env sku quantity =
                  (Except.error e,
                   [OdooEv.searchProduct sku, OdooEv.getStockQuant p.id 8,
                    OdooEv.writePending q.id (q.quantity - quantity),
                    OdooEv.applyInventory q.id]) := by
                simp [reduceStock, searchProductBySku, getStockQuant, withAudit,
                      hl, hs, hq, hneg, hw, ha]
              rw [htr]
              simp [runTrace, stepEv]
              omega
            | ok u =>
              have htr : (reduceStock env sku quantity).2 =
                  [OdooEv.searchProduct sku, OdooEv.getStockQuant p.id 8,
                   OdooEv.writePending q.id (q.quantity - quantity),
                   OdooEv.applyInventory q.id] := by
                simp [reduceStock, searchProductBySku, getStockQuant, withAudit,
                      hl, hs, hq, hneg, hw, ha]
              rw [htr]
              simp [runTrace, stepEv]
              omega

/-- Witness for C1 at a concrete environment: 3 on hand, 5 requested. -/
theorem reduceStock_insufficient_guard_witness :
    (reduceStock envLowStock "B2" 5).1 = Except.error (insufficientMsg 3 5) ∧
    (∀ i n, OdooEv.writePending i n ∉ (reduceStock envLowStock "B2" 5).2) ∧
    (∀ i, OdooEv.applyInventory i ∉ (reduceStock envLowStock "B2" 5).2) ∧
    runTrace ⟨3, none⟩ (reduceStock envLowStock "B2" 5).2 = ⟨3, none⟩ := by
  have h := reduceStock_insufficient_guard envLowStock "B2" 5 ⟨1, 3⟩ ⟨2, 3⟩ rfl rfl
  obtain ⟨h1, -⟩ := h
  obtain ⟨-, h2, h3, h4, h5⟩ := h1 (by decide)
  exact ⟨h2 rfl, h3, h4, h5⟩

/-- C4: a `reduceStock` run that returns success issued exactly one
write-pending call and exactly one apply call, on the same stock
quant, and the write-pending call strictly precedes the apply call in
the issue order. -/
theorem reduceStock_write_before_apply
    (env : OdooEnv) (sku : String) (quantity : Int) (r : ReduceResult)
    (h : (reduceStock env sku quantity).1 = Except.ok r) :
    ∃ i n,
      ((reduceStock env sku quantity).2.filter isWritePendingEv) =
          [OdooEv.writePending i n] ∧
      ((reduceStock env sku quantity).2.filter isApplyEv) =
          [OdooEv.applyInventory i] ∧
      (reduceStock env sku quantity).2.findIdx isWritePendingEv <
        (reduceStock env sku quantity).2.findIdx isApplyEv := by
  obtain ⟨-, p, q, -, -, -, -, htr⟩ := reduceStock_ok_inv env sku quantity r h
  refine ⟨q.id, q.quantity - quantity, ?_, ?_, ?_⟩ <;>
    simp [htr, isWritePendingEv, isApplyEv, List.findIdx_cons]

/-- Witness for C4 at a concrete fully-successful environment. -/
theorem reduceStock_write_before_apply_witness :
    ∃ i n,
      ((reduceStock envGood "A1" 2).2.filter isWritePendingEv) =
          [OdooEv.writePending i n] ∧
      ((reduceStock envGood "A1" 2).2.filter isApplyEv) =
          [OdooEv.applyInventory i] ∧
      (reduceStock envGood "A1" 2).2.findIdx isWritePendingEv <
        (reduceStock envGood "A1" 2).2.findIdx isApplyEv :=
  reduceStock_write_before_apply envGood "A1" 2 ⟨1, "A1", 10, 8, 2⟩ rfl

/-- C5: a successful `reduceStock` returns `previousStock` equal to
the quantity read from the resolved stock-quant record and `newStock`
equal to that quantity minus the requested quantity. -/
theorem reduceStock_returns_prev_and_target
    (env : OdooEnv) (sku : String) (quantity : Int) (r : ReduceResult)
    (h : (reduceStock env sku quantity).1 = Except.ok r) :
    ∃ p q, env.searchResult sku = Except.ok p ∧
      env.quantResult p.id = Except.ok q ∧
      r.previousStock = q.quantity ∧ r.newStock = q.quantity - quantity := by
  obtain ⟨-, p, q, hs, hq, -, hr, -⟩ := reduceStock_ok_inv env sku quantity r h
  subst hr
  exact ⟨p, q, hs, hq, rfl, rfl⟩

/-- Witness for C5: previous 10, requested 2, new 8. -/
theorem reduceStock_returns_prev_and_target_witness :
    ∃ p q, envGood.searchResult "A1" = Except.ok p ∧
      envGood.quantResult p.id = Except.ok q ∧
      (10 : Int) = q.quantity ∧ (8 : Int) = q.quantity - 2 :=
  reduceStock_returns_prev_and_target envGood "A1" 2 ⟨1, "A1", 10, 8, 2⟩ rfl

/-- C7 counterexample: two runs that differ only in whether the audit
record persists produce different outcomes — with audit persistence
the reduction resolves with its result, without it the whole call
rejects with the audit error, so the outcome of the operation is not
independent of the audit write. -/
theorem audit_failure_changes_outcome :
    envBadLog = { envGood with logOk := false } ∧
    (reduceStock envGood "A1" 2).1 = Except.ok ⟨1, "A1", 10, 8, 2⟩ ∧
    (reduceStock envBadLog "A1" 2).1 = Except.error auditErrMsg := by
  refine ⟨rfl, rfl, rfl⟩

/-- C7 amended: every operation awaits its audit-log writes and never
catches their rejection separately, so a rejected audit write fails
the operation being logged: when audit persistence rejects,
`reduceStock` rejects with the audit error whatever the protocol
outcome, and the fan-out aggregate rejects as soon as it has at least
one registered target. -/
theorem audit_failure_fails_operation
    (env : OdooEnv) (senv : SyncEnv) (sku : String) (quantity newStock : Int)
    (origin mp : String)
    (h : env.logOk = false) (h2 : senv.logOk = false)
    (hmp : mp ∈ targetsToSync origin) :
    (reduceStock env sku quantity).1 = Except.error auditErrMsg ∧
    ∃ e, (syncToAllMarketplaces senv sku newStock origin).1 = Except.error e := by
  constructor
  · simp [reduceStock, withAudit, h]
  · have hreg : mp ∈ marketplaceServiceNames := List.mem_of_mem_filter hmp
    have key : ∀ ts : List String, mp ∈ ts →
        ∃ e, (syncTargets senv sku newStock ts).1 = Except.error e := by
      intro ts
      induction ts with
      | nil => intro hx; simp at hx
      | cons t rest ih =>
        intro hx
        by_cases hreg2 : t ∈ marketplaceServiceNames
        · have hone : (syncOne senv sku newStock t).1 = Except.error auditErrMsg := by
            cases hu : senv.updateResult t <;>
              simp [syncOne, withAudit, hreg2, hu, h2]
          exact ⟨auditErrMsg, by simp [syncTargets, hone]⟩
        · have hne : mp ≠ t := fun hEq => hreg2 (hEq ▸ hreg)
          have hx2 : mp ∈ rest := by
            rcases List.mem_cons.mp hx with hEq | hm
            · exact absurd hEq hne
            · exact hm
          obtain ⟨e, he⟩ := ih hx2
          have hone : (syncOne senv sku newStock t).1 =
              Except.ok { marketplace := t, success := false,
                          error := some "Service not implemented" } := by
            simp [syncOne, hreg2]
          exact ⟨e, by simp [syncTargets, hone, he]⟩
    exact key (targetsToSync origin) hmp

/-- Witness for the amended C7 at concrete environments. -/
theorem audit_failure_fails_operation_witness :
    (reduceStock envBadLog "A1" 2).1 = Except.error auditErrMsg ∧
    ∃ e, (syncToAllMarketplaces { updateResult := fun _ => .ok (), logOk := false }
            "A1" 8 "falabella").1 = Except.error e := by
  have h := audit_failure_fails_operation envBadLog
      { updateResult := fun _ => .ok (), logOk := false }
      "A1" 2 8 "falabella" "ripley" rfl rfl (by decide)
  exact h

/-- Per-target entry the fan-out records for a marketplace when its
audit writes persist: success when its adapter resolved, otherwise a
failure carrying the error message of the adapter. -/
def outcomeOf (env : SyncEnv) (mp : String) : TargetResult :=
  match env.updateResult mp with
  | .ok _ => { marketplace := mp, success := true, error := none }
  | .error e => { marketplace := mp, success := false, error := some e }

/-- The arm of a registered target resolves to its recorded outcome and
issues exactly its `updateStock` call, as long as audit writes
persist. -/
lemma syncOne_logOk (env : SyncEnv) (sku : String) (n : Int) (mp : String)
    (hl : env.logOk = true) (hm : mp ∈ marketplaceServiceNames) :
    syncOne env sku n mp =
      (Except.ok (outcomeOf env mp), [SyncEv.updateStock mp sku n]) := by
  cases hu : env.updateResult mp <;>
    simp [syncOne, withAudit, outcomeOf, hl, hm, hu]

/-- With persisting audit writes and all targets registered, the
fan-out aggregate resolves to the per-target outcomes in target
order, and the issued calls are exactly one `updateStock` per
target. -/
lemma syncTargets_logOk (env : SyncEnv) (sku : String) (n : Int)
    (ts : List String) (hl : env.logOk = true)
    (hts : ∀ m ∈ ts, m ∈ marketplaceServiceNames) :
    syncTargets env sku n ts =
      (Except.ok (ts.map (outcomeOf env)),
       ts.map (fun m => SyncEv.updateStock m sku n)) := by
  induction ts with
  | nil => simp [syncTargets]
  | cons t rest ih =>
    have h1 := syncOne_logOk env sku n t hl (hts t (by simp))
    have h2 := ih (fun m hm => hts m (by simp [hm]))
    simp [syncTargets, h1, h2]

/-- Whatever the outcomes, the `updateStock` call of a registered target is
issued: with all targets registered the trace is exactly one call per
target. -/
lemma syncTargets_trace (env : SyncEnv) (sku : String) (n : Int)
    (ts : List String) (hts : ∀ m ∈ ts, m ∈ marketplaceServiceNames) :
    (syncTargets env sku n ts).2 =
      ts.map (fun m => SyncEv.updateStock m sku n) := by
  induction ts with
  | nil => simp [syncTargets]
  | cons t rest ih =>
    have hm := hts t (by simp)
    have h1 : (syncOne env sku n t).2 = [SyncEv.updateStock t sku n] := by
      cases hu : env.updateResult t <;> simp [syncOne, hm, hu]
    have h2 := ih (fun m hmm => hts m (by simp [hmm]))
    simp [syncTargets, h1, h2]

/-- Every issued fan-out call belongs to one of the requested
targets. -/
lemma syncTargets_trace_sub (env : SyncEnv) (sku : String) (n : Int)
    (ts : List String) :
    ∀ ev ∈ (syncTargets env sku n ts).2,
      ∃ m ∈ ts, ev = SyncEv.updateStock m sku n := by
  induction ts with
  | nil => simp [syncTargets]
  | cons t rest ih =>
    intro ev hev
    have hsplit : ev ∈ (syncOne env sku n t).2 ∨
        ev ∈ (syncTargets env sku n rest).2 := by
      simpa [syncTargets] using List.mem_append.mp (by simpa [syncTargets] using hev)
    rcases hsplit with h | h
    · by_cases hm : t ∈ marketplaceServiceNames
      · refine ⟨t, by simp, ?_⟩
        cases hu : env.updateResult t <;> simp [syncOne, hm, hu] at h <;> simp [h]
      · simp [syncOne, hm] at h
    · obtain ⟨m, hmm, hevm⟩ := ih ev h
      exact ⟨m, by simp [hmm], hevm⟩

/-- The fan-out targets are all registered marketplaces. -/
lemma targets_registered (origin : String) :
    ∀ m ∈ targetsToSync origin, m ∈ marketplaceServiceNames := by
  intro m hm
  exact List.mem_of_mem_filter hm

/-- The target list has no duplicates. -/
lemma targets_nodup (origin : String) : (targetsToSync origin).Nodup :=
  List.Nodup.filter _ (by decide)

/-- When the adapter of every listed marketplace resolves, no recorded
outcome is a failure and every one is a success. -/
lemma outcomes_all_ok (env : SyncEnv) (ts : List String)
    (hok : ∀ m ∈ ts, ∃ u, env.updateResult m = Except.ok u) :
    (ts.map (outcomeOf env)).filter (fun r => !r.success) = [] ∧
    ((ts.map (outcomeOf env)).filter (fun r => r.success)).length = ts.length := by
  induction ts with
  | nil => simp
  | cons t rest ih =>
    obtain ⟨u, hu⟩ := hok t (by simp)
    obtain ⟨ih1, ih2⟩ := ih (fun m hm => hok m (by simp [hm]))
    simp [outcomeOf, hu, ih1, ih2]

/-- When the adapter of exactly one listed marketplace rejects, the
recorded outcomes contain exactly one failure — that marketplace with
that error message — and one success per other marketplace. -/
lemma outcomes_one_fail (env : SyncEnv) (ts : List String) (mp : String)
    (e : String) (hnd : ts.Nodup) (hmem : mp ∈ ts)
    (hfail : env.updateResult mp = Except.error e)
    (hok : ∀ m ∈ ts, m ≠ mp → ∃ u, env.updateResult m = Except.ok u) :
    (ts.map (outcomeOf env)).filter (fun r => !r.success) =
      [{ marketplace := mp, success := false, error := some e }] ∧
    ((ts.map (outcomeOf env)).filter (fun r => r.success)).length =
      ts.length - 1 := by
  induction ts with
  | nil => simp at hmem
  | cons t rest ih =>
    rcases List.mem_cons.mp hmem with hEq | hmem2
    · subst hEq
      have hrest : ∀ m ∈ rest, ∃ u, env.updateResult m = Except.ok u := by
        intro m hm
        have hne : m ≠ mp := fun hx => (List.nodup_cons.mp hnd).1 (hx ▸ hm)
        exact hok m (by simp [hm]) hne
      obtain ⟨h1, h2⟩ := outcomes_all_ok env rest hrest
      simp [outcomeOf, hfail, h1, h2]
    · have hne : t ≠ mp := fun hx => (List.nodup_cons.mp hnd).1 (hx ▸ hmem2)
      obtain ⟨u, hu⟩ := hok t (by simp) hne
      obtain ⟨ih1, ih2⟩ :=
        ih (List.nodup_cons.mp hnd).2 hmem2
          (fun m hm hm2 => hok m (by simp [hm]) hm2)
      have hlen : 1 ≤ rest.length := List.length_pos.mpr (List.ne_nil_of_mem hmem2)
      constructor
      · simp [outcomeOf, hu, ih1]
      · simp [outcomeOf, hu, ih2]
        omega

/-- Fan-out environment in which every adapter resolves. -/
def syncEnvGood : SyncEnv := { updateResult := fun _ => .ok (), logOk := true }

/-- Fan-out environment in which exactly the `ripley` adapter rejects. -/
def syncEnvOneFail : SyncEnv :=
  { updateResult := fun m =>
      if m = "ripley" then .error "connection refused" else .ok ()
  , logOk := true }

/-- C2: when exactly one target adapter rejects, the fan-out still
resolves (no exception escapes) with one entry per target, all but
the failing one marked success, and the failing one carrying that
error message of that adapter; the `updateStock` call of every target is still
issued. -/
theorem syncStock_partial_failure_isolated
    (env : SyncEnv) (sku : String) (qty : Int) (origin mp e : String)
    (hlog : env.logOk = true)
    (hmem : mp ∈ targetsToSync origin)
    (hfail : env.updateResult mp = Except.error e)
    (hok : ∀ m ∈ targetsToSync origin, m ≠ mp →
      ∃ u, env.updateResult m = Except.ok u) :
    ∃ rs, (syncToAllMarketplaces env sku qty origin).1 = Except.ok rs ∧
      rs.length = (targetsToSync origin).length ∧
      (rs.filter (fun r => r.success)).length =
        (targetsToSync origin).length - 1 ∧
      rs.filter (fun r => !r.success) =
        [{ marketplace := mp, success := false, error := some e }] ∧
      ∀ m ∈ targetsToSync origin,
        SyncEv.updateStock m sku qty ∈
          (syncToAllMarketplaces env sku qty origin).2 := by
  have hts := targets_registered origin
  have hshape := syncTargets_logOk env sku qty (targetsToSync origin) hlog hts
  obtain ⟨hfil, hcnt⟩ :=
    outcomes_one_fail env (targetsToSync origin) mp e (targets_nodup origin)
      hmem hfail hok
  refine ⟨(targetsToSync origin).map (outcomeOf env), ?_, by simp, hcnt, hfil, ?_⟩
  · show (syncTargets env sku qty (targetsToSync origin)).1 = _
    rw [hshape]
  · intro m hm
    show _ ∈ (syncTargets env sku qty (targetsToSync origin)).2
    rw [syncTargets_trace env sku qty (targetsToSync origin) hts]
    exact List.mem_map_of_mem _ hm

/-- Witness for C2: origin `falabella`, targets `ripley`, `paris`,
`walmart`, with only `ripley` rejecting. -/
theorem syncStock_partial_failure_isolated_witness :
    ∃ rs, (syncToAllMarketplaces syncEnvOneFail "A1" 8 "falabella").1 =
        Except.ok rs ∧
      rs.length = (targetsToSync "falabella").length ∧
      (rs.filter (fun r => r.success)).length =
        (targetsToSync "falabella").length - 1 ∧
      rs.filter (fun r => !r.success) =
        [{ marketplace := "ripley", success := false,
           error := some "connection refused" }] ∧
      ∀ m ∈ targetsToSync "falabella",
        SyncEv.updateStock m "A1" 8 ∈
          (syncToAllMarketplaces syncEnvOneFail "A1" 8 "falabella").2 := by
  refine syncStock_partial_failure_isolated syncEnvOneFail "A1" 8 "falabella"
    "ripley" "connection refused" rfl (by decide) (by simp [syncEnvOneFail]) ?_
  intro m hm hne
  exact ⟨(), by simp [syncEnvOneFail, hne]⟩

/-- C3: every issued fan-out call goes to a configured marketplace
whose lower-cased name differs from the lower-cased origin (so the
origin adapter is never called), every such marketplace is indeed
called, and the standalone full resync (origin is the empty string)
calls every configured marketplace with the stock read from Odoo. -/
theorem syncStock_excludes_origin
    (env senv : SyncEnv) (oenv : OdooEnv) (plog : Bool)
    (sku : String) (qty : Int) (origin sku2 : String) :
    (∀ ev ∈ (syncToAllMarketplaces env sku qty origin).2,
       ∃ m, ev = SyncEv.updateStock m sku qty ∧ m ∈ AVAILABLE_MARKETPLACES ∧
            lowerStr m ≠ lowerStr origin) ∧
    (∀ m ∈ AVAILABLE_MARKETPLACES, lowerStr m ≠ lowerStr origin →
       SyncEv.updateStock m sku qty ∈
         (syncToAllMarketplaces env sku qty origin).2) ∧
    (∀ st, (getStockBySku oenv sku2).1 = Except.ok st →
       ∀ m ∈ AVAILABLE_MARKETPLACES,
         SyncEv.updateStock m sku2 st ∈
           (handleSyncStock oenv senv plog sku2).2.2) := by
  refine ⟨?_, ?_, ?_⟩
  · intro ev hev
    obtain ⟨m, hm, hevm⟩ :=
      syncTargets_trace_sub env sku qty (targetsToSync origin) ev hev
    have h2 := List.mem_filter.mp hm
    exact ⟨m, hevm, h2.1, by simpa [bne_iff_ne] using h2.2⟩
  · intro m hmem hne
    have hm : m ∈ targetsToSync origin :=
      List.mem_filter.mpr ⟨hmem, by simpa [bne_iff_ne] using hne⟩
    show _ ∈ (syncTargets env sku qty (targetsToSync origin)).2
    rw [syncTargets_trace env sku qty (targetsToSync origin)
      (targets_registered origin)]
    exact List.mem_map_of_mem _ hm
  · intro st hst m hmem
    have hall : ∀ x ∈ AVAILABLE_MARKETPLACES, lowerStr x ≠ lowerStr "" := by
      decide
    have hne : lowerStr m ≠ lowerStr "" := hall m hmem
    have hmem2 : m ∈ targetsToSync "" :=
      List.mem_filter.mpr ⟨hmem, by simpa [bne_iff_ne] using hne⟩
    have hmm : SyncEv.updateStock m sku2 st ∈
        (syncToAllMarketplaces senv sku2 st "").2 := by
      show _ ∈ (syncTargets senv sku2 st (targetsToSync "")).2
      rw [syncTargets_trace senv sku2 st (targetsToSync "")
        (targets_registered "")]
      exact List.mem_map_of_mem _ hmem2
    cases hg : getStockBySku oenv sku2 with
    | mk res t =>
      rw [hg] at hst
      simp only at hst
      subst hst
      cases hsy : syncToAllMarketplaces senv sku2 st "" with
      | mk sres st2 =>
        rw [hsy] at hmm
        cases sres with
        | error e =>
          simpa [handleSyncStock, hg, hsy] using hmm
        | ok rs =>
          simpa [handleSyncStock, hg, hsy] using hmm

/-- Witness for C3: origin `Falabella` (upper case) still excludes
`falabella`, `ripley` is called; the full resync with Odoo stock 10
calls `falabella` too. -/
theorem syncStock_excludes_origin_witness :
    SyncEv.updateStock "ripley" "A1" 8 ∈
      (syncToAllMarketplaces syncEnvGood "A1" 8 "Falabella").2 ∧
    SyncEv.updateStock "falabella" "A1" 10 ∈
      (handleSyncStock envGood syncEnvGood true "A1").2.2 := by
  have h := syncStock_excludes_origin syncEnvGood syncEnvGood envGood true
    "A1" 8 "Falabella" "A1"
  exact ⟨h.2.1 "ripley" (by decide) (by decide),
         h.2.2 10 rfl "falabella" (by decide)⟩

/-- Along any valid scheduling trace, the in-flight set never exceeds
the registered concurrency limit of the lane. -/
lemma validFrom_card (c : Nat) :
    ∀ (t : List QueueEv) (running started : List Nat),
      validFrom c running started t = true → running.length ≤ c →
      ∀ p, p <+: t → (p.foldl runningStep running).length ≤ c := by
  intro t
  induction t with
  | nil =>
    intro running started hv hr p hp
    obtain ⟨sfx, hs⟩ := hp
    have hpn : p = [] := (List.append_eq_nil.mp hs).1
    subst hpn
    simpa using hr
  | cons e rest ih =>
    intro running started hv hr p hp
    obtain ⟨sfx, hs⟩ := hp
    cases p with
    | nil => simpa using hr
    | cons x p' =>
      simp only [List.cons_append, List.cons.injEq] at hs
      obtain ⟨hx, hrest⟩ := hs
      subst hx
      cases x with
      | start j =>
        simp only [validFrom, Bool.and_eq_true, Bool.not_eq_true',
          decide_eq_true_eq] at hv
        obtain ⟨⟨hns, hlt⟩, hv2⟩ := hv
        have hlt2 : (j :: running).length ≤ c := by
          simp only [List.length_cons]
          omega
        have := ih (j :: running) (j :: started) hv2 hlt2 p' ⟨sfx, hrest⟩
        simpa [runningStep] using this
      | finish j =>
        simp only [validFrom, Bool.and_eq_true] at hv
        obtain ⟨hmem, hv2⟩ := hv
        have hle : (running.erase j).length ≤ c :=
          le_trans (List.Sublist.length_le (List.erase_sublist j running)) hr
        have := ih (running.erase j) started hv2 hle p' ⟨sfx, hrest⟩
        simpa [runningStep] using this

/-- C6: the `reduce-stock` lane is registered with concurrency 1, so
in every trace the queue can produce for it, at most one job is ever
in flight after any prefix — two distinct `reduce-stock` jobs never
execute concurrently, hence two ERP stock mutations never interleave
their protocol calls. -/
theorem reduceStock_jobs_never_concurrent
    (t : List QueueEv) (h : ValidTrace reduceStockProcess.concurrency t) :
    ∀ p, p <+: t → ∀ i j, i ∈ runningAfter p → j ∈ runningAfter p → i = j := by
  intro p hp i j hi hj
  have hc := validFrom_card reduceStockProcess.concurrency t [] [] h
    (by simp [reduceStockProcess]) p hp
  simp only [reduceStockProcess] at hc
  rw [runningAfter] at hi hj
  cases hl : p.foldl runningStep [] with
  | nil =>
    rw [hl] at hi
    simp at hi
  | cons a rest =>
    rw [hl] at hi hj hc
    simp only [List.length_cons] at hc
    have hr0 : rest = [] := List.eq_nil_of_length_eq_zero (by omega)
    subst hr0
    simp only [List.mem_singleton] at hi hj
    rw [hi, hj]

/-- Witness for C6: a serialized two-job trace; after the prefix that
started job 0, job 0 is the only job in flight. -/
theorem reduceStock_jobs_never_concurrent_witness :
    ValidTrace reduceStockProcess.concurrency
      [QueueEv.start 0, QueueEv.finish 0, QueueEv.start 1] ∧
    [QueueEv.start 0] <+:
      [QueueEv.start 0, QueueEv.finish 0, QueueEv.start 1] ∧
    0 ∈ runningAfter [QueueEv.start 0] ∧ (0 : Nat) = 0 := by
  have hv : ValidTrace reduceStockProcess.concurrency
      [QueueEv.start 0, QueueEv.finish 0, QueueEv.start 1] := by
    unfold ValidTrace
    decide
  have hp : [QueueEv.start 0] <+:
      [QueueEv.start 0, QueueEv.finish 0, QueueEv.start 1] :=
    ⟨[QueueEv.finish 0, QueueEv.start 1], rfl⟩
  have hm : 0 ∈ runningAfter [QueueEv.start 0] := by decide
  exact ⟨hv, hp, hm,
    reduceStock_jobs_never_concurrent _ hv _ hp 0 0 hm hm⟩

/-- The first call a `reduceStock` run issues is always the product
search, so its trace is never empty. -/
lemma reduceStock_trace_cons (env : OdooEnv) (sku : String) (quantity : Int) :
    ∃ rest, (reduceStock env sku quantity).2 =
      OdooEv.searchProduct sku :: rest := by
  cases hl : env.logOk with
  | false =>
    exact ⟨[], by simp [reduceStock, searchProductBySku, withAudit, hl]⟩
  | true =>
    cases hs : env.searchResult sku with
    | error e =>
      exact ⟨[], by simp [reduceStock, searchProductBySku, withAudit, hl, hs]⟩
    | ok p =>
      cases hq : env.quantResult p.id with
      | error e =>
        exact ⟨[OdooEv.getStockQuant p.id 8],
          by simp [reduceStock, searchProductBySku, getStockQuant, withAudit,
                   hl, hs, hq]⟩
      | ok q =>
        by_cases hneg : q.quantity - quantity < 0
        · exact ⟨[OdooEv.getStockQuant p.id 8],
            by simp [reduceStock, searchProductBySku, getStockQuant, withAudit,
                     hl, hs, hq, hneg]⟩
        · cases hw : env.writeResult q.id with
          | error e =>
            exact ⟨[OdooEv.getStockQuant p.id 8,
                    OdooEv.writePending q.id (q.quantity - quantity)],
              by simp [reduceStock, searchProductBySku, getStockQuant, withAudit,
                       hl, hs, hq, hneg, hw]⟩
          | ok wok =>
            cases wok with
            | false =>
              exact ⟨[OdooEv.getStockQuant p.id 8,
                      OdooEv.writePending q.id (q.quantity - quantity)],
                by simp [reduceStock, searchProductBySku, getStockQuant, withAudit,
                         hl, hs, hq, hneg, hw]⟩
            | true =>
              cases ha : env.applyResult q.id with
              | error e =>
                exact ⟨[OdooEv.getStockQuant p.id 8,
                        OdooEv.writePending q.id (q.quantity - quantity),
                        OdooEv.applyInventory q.id],
                  by simp [reduceStock, searchProductBySku, getStockQuant,
                           withAudit, hl, hs, hq, hneg, hw, ha]⟩
              | ok u =>
                exact ⟨[OdooEv.getStockQuant p.id 8,
                        OdooEv.writePending q.id (q.quantity - quantity),
                        OdooEv.applyInventory q.id],
                  by simp [reduceStock, searchProductBySku, getStockQuant,
                           withAudit, hl, hs, hq, hneg, hw, ha]⟩

/-- C10: a `reduce-stock` job whose payload already carries `newStock`
performs no ERP call at all and fans exactly the supplied value out to
the non-origin marketplaces; without `newStock` the handler runs the
ERP reduction (its trace is the `reduceStock` trace, which is never
empty). -/
theorem handleReduceStock_skips_erp
    (oenv : OdooEnv) (senv : SyncEnv) (plog : Bool) (job : ReduceJobData) :
    (∀ fs, job.newStock = some fs →
       (handleReduceStock oenv senv plog job).2.1 = [] ∧
       (handleReduceStock oenv senv plog job).2.2 =
         (targetsToSync job.source).map
           (fun m => SyncEv.updateStock m job.sku fs)) ∧
    (job.newStock = none →
       (handleReduceStock oenv senv plog job).2.1 =
         (reduceStock oenv job.sku job.quantity).2 ∧
       (handleReduceStock oenv senv plog job).2.1 ≠ []) := by
  constructor
  · intro fs hfs
    have htr := syncTargets_trace senv job.sku fs (targetsToSync job.source)
      (targets_registered job.source)
    cases hsy : syncToAllMarketplaces senv job.sku fs job.source with
    | mk sres st2 =>
      have htr2 : st2 =
          (targetsToSync job.source).map
            (fun m => SyncEv.updateStock m job.sku fs) := by
        have : (syncToAllMarketplaces senv job.sku fs job.source).2 = st2 := by
          rw [hsy]
        rw [← this]
        exact htr
      cases sres with
      | error e =>
        exact ⟨by simp [handleReduceStock, hfs, hsy],
               by simp [handleReduceStock, hfs, hsy, htr2]⟩
      | ok rs =>
        exact ⟨by simp [handleReduceStock, hfs, hsy],
               by simp [handleReduceStock, hfs, hsy, htr2]⟩
  · intro hns
    obtain ⟨rest, hrest⟩ := reduceStock_trace_cons oenv job.sku job.quantity
    cases hr : reduceStock oenv job.sku job.quantity with
    | mk rres rt =>
      have hrt : rt = OdooEv.searchProduct job.sku :: rest := by
        rw [hr] at hrest
        exact hrest
      cases rres with
      | error e =>
        refine ⟨by simp [handleReduceStock, hns, hr], ?_⟩
        simp [handleReduceStock, hns, hr, hrt]
      | ok r =>
        cases hsy : syncToAllMarketplaces senv job.sku r.newStock job.source with
        | mk sres st2 =>
          cases sres with
          | error e =>
            refine ⟨by simp [handleReduceStock, hns, hr, hsy], ?_⟩
            simp [handleReduceStock, hns, hr, hsy, hrt]
          | ok rs =>
            refine ⟨by simp [handleReduceStock, hns, hr, hsy], ?_⟩
            simp [handleReduceStock, hns, hr, hsy, hrt]

/-- Concrete `reduce-stock` payload that already carries `newStock`. -/
def jobWithStock : ReduceJobData :=
  { orderId := some "o1", sku := "A1", quantity := 2,
    source := "falabella", newStock := some 8 }

/-- Concrete `reduce-stock` payload without `newStock`. -/
def jobNoStock : ReduceJobData :=
  { orderId := some "o1", sku := "A1", quantity := 2,
    source := "falabella", newStock := none }

/-- Witness for C10 on the two concrete payload shapes. -/
theorem handleReduceStock_skips_erp_witness :
    (handleReduceStock envGood syncEnvGood true jobWithStock).2.1 = [] ∧
    (handleReduceStock envGood syncEnvGood true jobWithStock).2.2 =
      (targetsToSync "falabella").map
        (fun m => SyncEv.updateStock m "A1" 8) ∧
    (handleReduceStock envGood syncEnvGood true jobNoStock).2.1 =
      (reduceStock envGood "A1" 2).2 := by
  have h1 := (handleReduceStock_skips_erp envGood syncEnvGood true
    jobWithStock).1 8 rfl
  have h2 := (handleReduceStock_skips_erp envGood syncEnvGood true
    jobNoStock).2 rfl
  exact ⟨h1.1, h1.2, h2.1⟩

/-- The line built for each resolved item records the gross price
divided by the fixed `1.19` tax multiplier, position by position. -/
lemma itemLines_price (env : OdooEnv) :
    ∀ (items : List OrderItem) (ls : List OrderLine),
      (itemLines env items).1 = Except.ok ls →
      ls.length = items.length ∧
      ∀ i, (hi : i < items.length) → (hl : i < ls.length) →
        (ls.get ⟨i, hl⟩).priceUnit = (items.get ⟨i, hi⟩).price / 1.19 := by
  intro items
  induction items with
  | nil =>
    intro ls h
    simp [itemLines] at h
    subst h
    refine ⟨rfl, ?_⟩
    intro i hi
    simp at hi
  | cons item rest ih =>
    intro ls h
    cases hsp : withAudit env.logOk (env.searchResult item.sku) with
    | error e =>
      simp [itemLines, searchProductBySku, hsp] at h
    | ok p =>
      cases hrt : itemLines env rest with
      | mk rres rt =>
        cases rres with
        | error e =>
          simp [itemLines, searchProductBySku, hsp, hrt] at h
        | ok ls2 =>
          simp [itemLines, searchProductBySku, hsp, hrt] at h
          obtain ⟨h1, h2⟩ := ih ls2 (by rw [hrt])
          subst h
          refine ⟨by simp [h1], ?_⟩
          intro i hi hl
          cases i with
          | zero => simp
          | succ n =>
            simp only [List.get_cons_succ]
            exact h2 n (by simpa using hi) (by simpa using hl)

/-- The synthetic shipping line, when built, records the shipping fee
divided by the fixed `1.19` tax multiplier. -/
lemma shippingLines_price (env : OdooEnv) (mp : String) (p : ℚ)
    (l : OrderLine) (t : List OdooEv) (hp : 0 < p)
    (h : shippingLines env mp (some p) = ([l], t)) :
    l.priceUnit = p / 1.19 := by
  cases hsp : withAudit env.logOk (env.searchResult (shippingSkuFor mp)) with
  | error e =>
    simp [shippingLines, searchProductBySku, hp, hsp] at h
  | ok sp =>
    simp [shippingLines, searchProductBySku, hp, hsp] at h
    rw [← h.1]

/-- C9: every sales-order line built for an item carries the gross
price divided by `1.19` (which is exactly `1 + 19/100`, the
fixed tax rate), and the synthetic shipping line carries the shipping
fee divided by the same multiplier. -/
theorem unit_price_removes_tax
    (env : OdooEnv) (items : List OrderItem) (ls : List OrderLine)
    (h : (itemLines env items).1 = Except.ok ls) :
    ls.length = items.length ∧
    (∀ i, (hi : i < items.length) → (hl : i < ls.length) →
        (ls.get ⟨i, hl⟩).priceUnit = (items.get ⟨i, hi⟩).price / 1.19) ∧
    (∀ mp p l t, 0 < p →
        shippingLines env mp (some p) = ([l], t) →
        l.priceUnit = p / 1.19) ∧
    (1.19 : ℚ) = 1 + 19 / 100 := by
  obtain ⟨h1, h2⟩ := itemLines_price env items ls h
  exact ⟨h1, h2,
    fun mp p l t hp hs => shippingLines_price env mp p l t hp hs,
    by norm_num⟩

/-- Concrete order item: gross price 119, net 100. -/
def sampleItem : OrderItem :=
  { sku := "A1", quantity := 2, price := 119, itemName := "Gadget" }

/-- Witness for C9: the single built line carries `119 / 1.19 = 100`. -/
theorem unit_price_removes_tax_witness :
    (itemLines envGood [sampleItem]).1 =
      Except.ok [{ productId := 1, quantity := 2, priceUnit := 100,
                   lineName := "A1 - Gadget" }] ∧
    (100 : ℚ) = sampleItem.price / 1.19 := by
  have hok : (itemLines envGood [sampleItem]).1 =
      Except.ok [{ productId := 1, quantity := 2, priceUnit := (100 : ℚ),
                   lineName := "A1 - Gadget" }] := by
    norm_num [itemLines, searchProductBySku, withAudit, envGood, sampleItem]
    rfl
  obtain ⟨-, h2, -, -⟩ := unit_price_removes_tax envGood [sampleItem] _ hok
  have h5 := h2 0 (by norm_num) (by norm_num)
  refine ⟨hok, ?_⟩
  simpa using h5

/-- Calls that can be issued before the sale-order creation step:
customer, billing-contact and product lookups. -/
def isLookupEv : OdooEv → Bool
  | .searchProduct _ => true
  | .searchPartner _ => true
  | .createPartner => true
  | .searchInvoiceContact _ _ => true
  | .createInvoiceContact => true
  | _ => false

/-- Customer resolution only issues lookup/create-partner calls. -/
lemma resolveCustomer_lookup (env : OdooEnv) (email : String) :
    ∀ ev ∈ (resolveCustomer env email).2, isLookupEv ev = true := by
  unfold resolveCustomer
  cases hpb : searchPartnerByEmail env email with
  | mk r t1 =>
    have ht1 : t1 = [OdooEv.searchPartner email] := by
      have h0 : (searchPartnerByEmail env email).2 =
          [OdooEv.searchPartner email] := rfl
      rw [hpb] at h0
      exact h0
    subst ht1
    cases r with
    | error e =>
      intro ev hev
      simp at hev
      subst hev
      rfl
    | ok existing =>
      cases existing with
      | some pid =>
        intro ev hev
        simp at hev
        subst hev
        rfl
      | none =>
        cases hcp : createPartner env with
        | mk cr tc =>
          have htc : tc = [OdooEv.createPartner] := by
            have h0 : (createPartner env).2 = [OdooEv.createPartner] := rfl
            rw [hcp] at h0
            exact h0
          subst htc
          cases cr with
          | error e =>
            intro ev hev
            simp at hev
            rcases hev with h | h <;> subst h <;> rfl
          | ok pid =>
            intro ev hev
            simp at hev
            rcases hev with h | h <;> subst h <;> rfl

/-- Billing-contact resolution only issues lookup/create calls. -/
lemma resolveBilling_lookup (env : OdooEnv) (pid : Int) (cust : CustomerData) :
    ∀ ev ∈ (resolveBilling env pid cust).2, isLookupEv ev = true := by
  intro ev hev
  cases hleg : cust.legalId with
  | none => simp [resolveBilling, hleg] at hev
  | some legalId =>
    cases hbn : cust.billingName with
    | none => simp [resolveBilling, hleg, hbn] at hev
    | some bn =>
      cases hsi : searchInvoiceContact env pid legalId with
      | mk r t =>
        have ht : t = [OdooEv.searchInvoiceContact pid legalId] := by
          have h0 : (searchInvoiceContact env pid legalId).2 =
              [OdooEv.searchInvoiceContact pid legalId] := rfl
          rw [hsi] at h0
          exact h0
        subst ht
        cases r with
        | error e =>
          simp [resolveBilling, hleg, hbn, hsi] at hev
          subst hev
          rfl
        | ok copt =>
          cases copt with
          | some cid =>
            simp [resolveBilling, hleg, hbn, hsi] at hev
            subst hev
            rfl
          | none =>
            cases hci : createInvoiceContact env with
            | mk cr tc =>
              have htc : tc = [OdooEv.createInvoiceContact] := by
                have h0 : (createInvoiceContact env).2 =
                    [OdooEv.createInvoiceContact] := rfl
                rw [hci] at h0
                exact h0
              subst htc
              cases cr with
              | error e =>
                simp [resolveBilling, hleg, hbn, hsi, hci] at hev
                rcases hev with h | h <;> subst h <;> rfl
              | ok cid =>
                simp [resolveBilling, hleg, hbn, hsi, hci] at hev
                rcases hev with h | h <;> subst h <;> rfl

/-- Line building only issues product searches. -/
lemma itemLines_lookup (env : OdooEnv) :
    ∀ (items : List OrderItem) (ev : OdooEv),
      ev ∈ (itemLines env items).2 → isLookupEv ev = true := by
  intro items
  induction items with
  | nil =>
    intro ev hev
    simp [itemLines] at hev
  | cons item rest ih =>
    intro ev hev
    cases hsp : withAudit env.logOk (env.searchResult item.sku) with
    | error e =>
      simp [itemLines, searchProductBySku, hsp] at hev
      subst hev
      rfl
    | ok p =>
      cases hrt : itemLines env rest with
      | mk rres rt =>
        cases rres with
        | error e =>
          simp [itemLines, searchProductBySku, hsp, hrt] at hev
          rcases hev with h | h
          · subst h; rfl
          · exact ih ev (by rw [hrt]; exact h)
        | ok ls2 =>
          simp [itemLines, searchProductBySku, hsp, hrt] at hev
          rcases hev with h | h
          · subst h; rfl
          · exact ih ev (by rw [hrt]; exact h)

/-- A trace of lookup calls contains no sale-order creation,
confirmation or write-pending call. -/
lemma lookup_only_no_orders {t : List OdooEv}
    (hl : ∀ ev ∈ t, isLookupEv ev = true) :
    (∀ ls, OdooEv.createSaleOrder ls ∉ t) ∧
    (∀ oid, OdooEv.confirmSaleOrder oid ∉ t) ∧
    (∀ i n, OdooEv.writePending i n ∉ t) := by
  refine ⟨?_, ?_, ?_⟩
  · intro ls hmem
    have := hl _ hmem
    simp [isLookupEv] at this
  · intro oid hmem
    have := hl _ hmem
    simp [isLookupEv] at this
  · intro i n hmem
    have := hl _ hmem
    simp [isLookupEv] at this

/-- A member item whose SKU lookup rejects makes the whole line
build reject. -/
lemma itemLines_error_of_mem (env : OdooEnv) :
    ∀ (items : List OrderItem) (item : OrderItem) (e : String),
      item ∈ items → env.searchResult item.sku = Except.error e →
      ∀ ls, (itemLines env items).1 ≠ Except.ok ls := by
  intro items
  induction items with
  | nil =>
    intro item e hmem
    simp at hmem
  | cons it rest ih =>
    intro item e hmem hfail ls h
    cases hsp : withAudit env.logOk (env.searchResult it.sku) with
    | error e2 =>
      simp [itemLines, searchProductBySku, hsp] at h
    | ok p =>
      have hne : it ≠ item := by
        intro hEq
        rw [hEq] at hsp
        cases hl : env.logOk <;> simp [withAudit, hl, hfail] at hsp
      have hmem2 : item ∈ rest := by
        rcases List.mem_cons.mp hmem with hEq | hm
        · exact absurd hEq.symm hne
        · exact hm
      cases hrt : itemLines env rest with
      | mk rres rt =>
        cases rres with
        | error e2 =>
          simp [itemLines, searchProductBySku, hsp, hrt] at h
        | ok ls2 =>
          exact ih item e hmem2 hfail ls2 (by rw [hrt])

/-- Shipping line without a shipping fee: nothing built, no call. -/
lemma shippingLines_none (env : OdooEnv) (mp : String) :
    shippingLines env mp none = ([], []) := rfl

/-- A failing shipping-product lookup is caught: the line is omitted
and only the search call remains in the trace. -/
lemma shippingLines_fail (env : OdooEnv) (mp : String) (p : ℚ) (eShip : String)
    (hp : 0 < p)
    (hfail : env.searchResult (shippingSkuFor mp) = Except.error eShip) :
    shippingLines env mp (some p) =
      ([], [OdooEv.searchProduct (shippingSkuFor mp)]) := by
  cases hl : env.logOk <;>
    simp [shippingLines, hp, searchProductBySku, withAudit, hl, hfail]

/-- Success inversion for `processMarketplaceOrder`: a resolved run
fixes the line build and the per-item stock reduction, and its trace
is the concatenation of the step traces with the sale-order creation
(carrying the built lines) and confirmation calls in between. -/
lemma processOrder_ok_inv (env : OdooEnv) (od : OrderData)
    (res : ProcessOrderResult)
    (h : (processMarketplaceOrder env od).1 = Except.ok res) :
    ∃ lines0,
      (itemLines env od.items).1 = Except.ok lines0 ∧
      (reduceItems env od.items).1 = Except.ok res.stockUpdates ∧
      (processMarketplaceOrder env od).2 =
        (resolveCustomer env od.customer.email).2 ++
        (resolveBilling env res.partnerId od.customer).2 ++
        (itemLines env od.items).2 ++
        (shippingLines env od.marketplace od.shippingPrice).2 ++
        [OdooEv.createSaleOrder
           (lines0 ++ (shippingLines env od.marketplace od.shippingPrice).1)] ++
        [OdooEv.confirmSaleOrder res.saleOrderId] ++
        (reduceItems env od.items).2 := by
  cases hrc : resolveCustomer env od.customer.email with
  | mk cres ta =>
    cases cres with
    | error e =>
      simp [processMarketplaceOrder, withAuditErr, hrc] at h
    | ok partnerId =>
      cases hrb : resolveBilling env partnerId od.customer with
      | mk bres tb =>
        cases bres with
        | error e =>
          simp [processMarketplaceOrder, withAuditErr, hrc, hrb] at h
        | ok invId =>
          cases hil : itemLines env od.items with
          | mk ilres t3 =>
            cases ilres with
            | error e =>
              simp [processMarketplaceOrder, withAuditErr, hrc, hrb, hil] at h
            | ok lines0 =>
              cases hcs : createSaleOrder env
                  (lines0 ++ (shippingLines env od.marketplace od.shippingPrice).1) with
              | mk csres t4 =>
                have ht4 : t4 = [OdooEv.createSaleOrder
                    (lines0 ++ (shippingLines env od.marketplace od.shippingPrice).1)] := by
                  have h0 := congrArg Prod.snd hcs
                  exact h0.symm.trans rfl
                cases csres with
                | error e =>
                  simp [processMarketplaceOrder, withAuditErr, hrc, hrb, hil, hcs] at h
                | ok soId =>
                  cases hcf : confirmSaleOrder env soId with
                  | mk cfres t5 =>
                    have ht5 : t5 = [OdooEv.confirmSaleOrder soId] := by
                      have h0 := congrArg Prod.snd hcf
                      exact h0.symm.trans rfl
                    cases cfres with
                    | error e =>
                      simp [processMarketplaceOrder, withAuditErr,
                            hrc, hrb, hil, hcs, hcf] at h
                    | ok b =>
                      cases hri : reduceItems env od.items with
                      | mk rires t6 =>
                        cases rires with
                        | error e =>
                          simp [processMarketplaceOrder, withAuditErr,
                                hrc, hrb, hil, hcs, hcf, hri] at h
                        | ok ups =>
                          simp [processMarketplaceOrder, withAuditErr,
                                hrc, hrb, hil, hcs, hcf, hri] at h
                          refine ⟨lines0, rfl, ?_, ?_⟩
                          · simp [← h]
                          · simp [processMarketplaceOrder, hrc, hrb, hil,
                                  hcs, hcf, hri, ht4, ht5, ← h]

/-- C8: with a positive shipping fee whose shipping-product lookup
rejects, `processMarketplaceOrder` returns exactly what it returns
with no shipping fee at all (the failure is caught and the synthetic
line omitted), and a successful such run still creates the sale order
(with exactly the item lines), confirms it and reduces stock per
item; by contrast a rejecting SKU lookup for an ordinary line item
makes the whole order fail before any sale-order creation,
confirmation or stock write. -/
theorem shipping_nonfatal_item_fatal (env : OdooEnv) (od : OrderData) :
    (∀ p eShip, od.shippingPrice = some p → 0 < p →
       env.searchResult (shippingSkuFor od.marketplace) = Except.error eShip →
       (processMarketplaceOrder env od).1 =
         (processMarketplaceOrder env { od with shippingPrice := none }).1 ∧
       (∀ res, (processMarketplaceOrder env od).1 = Except.ok res →
          ∃ lines0, (itemLines env od.items).1 = Except.ok lines0 ∧
            OdooEv.createSaleOrder lines0 ∈ (processMarketplaceOrder env od).2 ∧
            OdooEv.confirmSaleOrder res.saleOrderId ∈
              (processMarketplaceOrder env od).2 ∧
            (reduceItems env od.items).1 = Except.ok res.stockUpdates)) ∧
    (∀ item e, item ∈ od.items → env.searchResult item.sku = Except.error e →
       (∀ res, (processMarketplaceOrder env od).1 ≠ Except.ok res) ∧
       (∀ ls, OdooEv.createSaleOrder ls ∉ (processMarketplaceOrder env od).2) ∧
       (∀ oid, OdooEv.confirmSaleOrder oid ∉
          (processMarketplaceOrder env od).2) ∧
       (∀ i n, OdooEv.writePending i n ∉ (processMarketplaceOrder env od).2)) := by
  constructor
  · intro p eShip hpp hp hfail
    have hship : shippingLines env od.marketplace od.shippingPrice =
        ([], [OdooEv.searchProduct (shippingSkuFor od.marketplace)]) := by
      rw [hpp]
      exact shippingLines_fail env od.marketplace p eShip hp hfail
    constructor
    · cases hrc : resolveCustomer env od.customer.email with
      | mk cres ta =>
        cases cres with
        | error e =>
          simp [processMarketplaceOrder, hrc]
        | ok partnerId =>
          cases hrb : resolveBilling env partnerId od.customer with
          | mk bres tb =>
            cases bres with
            | error e =>
              simp [processMarketplaceOrder, hrc, hrb]
            | ok invId =>
              cases hil : itemLines env od.items with
              | mk ilres t3 =>
                cases ilres with
                | error e =>
                  simp [processMarketplaceOrder, hrc, hrb, hil]
                | ok lines0 =>
                  cases hcs : createSaleOrder env lines0 with
                  | mk csres t4 =>
                    cases csres with
                    | error e =>
                      simp [processMarketplaceOrder, hrc, hrb, hil,
                            hship, shippingLines_none, hcs]
                    | ok soId =>
                      cases hcf : confirmSaleOrder env soId with
                      | mk cfres t5 =>
                        cases cfres with
                        | error e =>
                          simp [processMarketplaceOrder, hrc, hrb, hil,
                                hship, shippingLines_none, hcs, hcf]
                        | ok b =>
                          cases hri : reduceItems env od.items with
                          | mk rires t6 =>
                            cases rires with
                            | error e =>
                              simp [processMarketplaceOrder, hrc, hrb, hil,
                                    hship, shippingLines_none, hcs, hcf, hri]
                            | ok ups =>
                              simp [processMarketplaceOrder, hrc, hrb, hil,
                                    hship, shippingLines_none, hcs, hcf, hri]
    · intro res hres
      obtain ⟨lines0, hil, hri, htr⟩ := processOrder_ok_inv env od res hres
      refine ⟨lines0, hil, ?_, ?_, hri⟩
      · rw [htr, hship]
        simp
      · rw [htr]
        simp
  · intro item e hmem hfail
    have hitem := itemLines_error_of_mem env od.items item e hmem hfail
    cases hrc : resolveCustomer env od.customer.email with
    | mk cres ta =>
      cases cres with
      | error e2 =>
        have htr : (processMarketplaceOrder env od).2 = ta := by
          simp [processMarketplaceOrder, hrc]
        have hlk : ∀ ev ∈ (processMarketplaceOrder env od).2,
            isLookupEv ev = true := by
          rw [htr]
          intro ev hev
          exact resolveCustomer_lookup env od.customer.email ev
            (by rw [hrc]; exact hev)
        obtain ⟨h1, h2, h3⟩ := lookup_only_no_orders hlk
        refine ⟨?_, h1, h2, h3⟩
        intro res
        simp [processMarketplaceOrder, withAuditErr, hrc]
      | ok partnerId =>
        cases hrb : resolveBilling env partnerId od.customer with
        | mk bres tb =>
          cases bres with
          | error e2 =>
            have htr : (processMarketplaceOrder env od).2 = ta ++ tb := by
              simp [processMarketplaceOrder, hrc, hrb]
            have hlk : ∀ ev ∈ (processMarketplaceOrder env od).2,
                isLookupEv ev = true := by
              rw [htr]
              intro ev hev
              rcases List.mem_append.mp hev with hh | hh
              · exact resolveCustomer_lookup env od.customer.email ev
                  (by rw [hrc]; exact hh)
              · exact resolveBilling_lookup env partnerId od.customer ev
                  (by rw [hrb]; exact hh)
            obtain ⟨h1, h2, h3⟩ := lookup_only_no_orders hlk
            refine ⟨?_, h1, h2, h3⟩
            intro res
            simp [processMarketplaceOrder, withAuditErr, hrc, hrb]
          | ok invId =>
            cases hil : itemLines env od.items with
            | mk ilres t3 =>
              cases ilres with
              | ok ls0 =>
                exact absurd (show (itemLines env od.items).1 = Except.ok ls0 by
                  rw [hil]) (hitem ls0)
              | error e3 =>
                have htr : (processMarketplaceOrder env od).2 =
                    ta ++ tb ++ t3 := by
                  simp [processMarketplaceOrder, hrc, hrb, hil]
                have hlk : ∀ ev ∈ (processMarketplaceOrder env od).2,
                    isLookupEv ev = true := by
                  rw [htr]
                  intro ev hev
                  rcases List.mem_append.mp hev with hh | hh
                  · rcases List.mem_append.mp hh with hg | hg
                    · exact resolveCustomer_lookup env od.customer.email ev
                        (by rw [hrc]; exact hg)
                    · exact resolveBilling_lookup env partnerId od.customer ev
                        (by rw [hrb]; exact hg)
                  · exact itemLines_lookup env od.items ev
                      (by rw [hil]; exact hh)
                obtain ⟨h1, h2, h3⟩ := lookup_only_no_orders hlk
                refine ⟨?_, h1, h2, h3⟩
                intro res
                simp [processMarketplaceOrder, withAuditErr, hrc, hrb, hil]

/-- `envGood` except that every SKU other than `A1` (in particular
the `ENVWALM` shipping product) is missing. -/
def envShipFail : OdooEnv :=
  { envGood with searchResult := fun sku =>
      if sku = "A1" then .ok ⟨1, 10⟩
      else .error "Producto no encontrado" }

/-- `envGood` except that the `A1` product lookup itself rejects. -/
def envItemFail : OdooEnv :=
  { envGood with searchResult := fun sku =>
      if sku = "A1" then Except.error "Product with SKU A1 not found in Odoo"
      else Except.ok ⟨1, 10⟩ }

/-- Concrete customer block. -/
def sampleCustomer : CustomerData :=
  { custName := "Ana", email := "ana@mail.cl", phone := none,
    nationalId := some "1-9", legalId := none, billingName := none,
    billingStreet := none, billingCity := none }

/-- Concrete walmart order with one item and a positive shipping fee. -/
def sampleOrder : OrderData :=
  { marketplace := "walmart", orderId := "W1", customer := sampleCustomer,
    items := [sampleItem], shippingPrice := some 5 }

/-- Witness for C8 at the concrete order: failed shipping lookup gives
the same result as no shipping fee; a failed item lookup yields no
success and no sale-order creation call. -/
theorem shipping_nonfatal_item_fatal_witness :
    (processMarketplaceOrder envShipFail sampleOrder).1 =
      (processMarketplaceOrder envShipFail
        { sampleOrder with shippingPrice := none }).1 ∧
    (∀ res, (processMarketplaceOrder envItemFail sampleOrder).1 ≠
        Except.ok res) ∧
    (∀ ls, OdooEv.createSaleOrder ls ∉
        (processMarketplaceOrder envItemFail sampleOrder).2) := by
  have h1 := ((shipping_nonfatal_item_fatal envShipFail sampleOrder).1 5
    "Producto no encontrado" rfl (by norm_num) rfl).1
  have h2 := (shipping_nonfatal_item_fatal envItemFail sampleOrder).2 sampleItem
    "Product with SKU A1 not found in Odoo" (by simp [sampleOrder]) rfl
  exact ⟨h1, h2.1, h2.2.1⟩
